import Mathlib

/-!
Shallow embedding of `crates/yewdux/src/mrc.rs`: the `Mrc<T>` change-tracking
wrapper over `Rc<RefCell<T>>` together with the thread-local `nonce` counter.

Modelling choices:
* The `Rc` heap is a list of cells; an `Rc<RefCell<T>>` pointer is the index
  of its cell, so `Rc::ptr_eq` is index equality.
* The runtime borrow flag of a `RefCell` is an explicit `BorrowState`; `borrow`
  and `borrow_mut` fail (Rust panic) exactly when the flag is incompatible.
* The thread-local `NONCE : Cell<u32>` is a counter in the world state;
  `u32` arithmetic is `Nat` taken modulo `2 ^ 32` (`wrapping_add`).
* `&mut self` methods return the updated handle explicitly.
-/

/-- The modulus of `u32` arithmetic. -/
def U32 : Nat := 4294967296

/-- Runtime borrow flag of a `RefCell`: unborrowed, `n + 1` shared
borrows outstanding, or one exclusive borrow outstanding. -/
inductive BorrowState where
  | free : BorrowState
  | shared (n : Nat) : BorrowState
  | exclusive : BorrowState
deriving DecidableEq, Repr

/-- One heap cell: the payload of a `RefCell<T>` plus its borrow flag. -/
structure Cell (α : Type) where
  value : α
  flag : BorrowState
deriving DecidableEq, Repr

/-- World state threaded through the embedded operations: the `Rc` heap and
the thread-local `NONCE` counter (starts at `0`, the `u32` default). -/
structure World (α : Type) where
  heap : List (Cell α)
  counter : Nat
deriving DecidableEq, Repr

/-- The `nonce()` function: `NONCE.set(NONCE.get().wrapping_add(1))`, then
return `NONCE.get()`. -/
def nonceCall (w : World α) : Nat × World α :=
  let n := (w.counter + 1) % U32
  (n, { w with counter := n })

/-- A handle `Mrc<T>`: the `Rc` pointer identity of `inner` and the
per-handle `nonce : u32` field. -/
structure Mrc where
  inner : Nat
  nonce : Nat
deriving DecidableEq, Repr

/-- The payload currently stored at heap index `i`, if the cell exists. -/
def getValue (w : World α) (i : Nat) : Option α :=
  (w.heap[i]?).map Cell.value

/-- The borrow flag of the cell at heap index `i`, if the cell exists. -/
def getFlag (w : World α) (i : Nat) : Option BorrowState :=
  (w.heap[i]?).map Cell.flag

/-- Replace the cell at heap index `i`. -/
def setCell (w : World α) (i : Nat) (c : Cell α) : World α :=
  { w with heap := w.heap.set i c }

/-- `RefCell::borrow` on a flag: a shared borrow succeeds unless an
exclusive borrow is outstanding. -/
def tryShared : BorrowState → Option BorrowState
  | .free => some (.shared 0)
  | .shared n => some (.shared (n + 1))
  | .exclusive => none

/-- `RefCell::borrow_mut` on a flag: an exclusive borrow succeeds only when
no borrow at all is outstanding. -/
def tryExclusive : BorrowState → Option BorrowState
  | .free => some .exclusive
  | .shared _ => none
  | .exclusive => none

/-- Dropping one shared guard of the cell at index `i`. -/
def releaseShared (w : World α) (i : Nat) : World α :=
  match w.heap[i]? with
  | some c =>
    match c.flag with
    | .shared 0 => setCell w i ⟨c.value, .free⟩
    | .shared (n + 1) => setCell w i ⟨c.value, .shared n⟩
    | _ => w
  | none => w

/-- Dropping the exclusive guard of the cell at index `i`. -/
def releaseExclusive (w : World α) (i : Nat) : World α :=
  match w.heap[i]? with
  | some c =>
    match c.flag with
    | .exclusive => setCell w i ⟨c.value, .free⟩
    | _ => w
  | none => w

/-- Overwrite the payload at index `i`, keeping the borrow flag (a write
through an outstanding exclusive guard). -/
def writeValue (w : World α) (i : Nat) (v : α) : World α :=
  match w.heap[i]? with
  | some c => setCell w i ⟨v, c.flag⟩
  | none => w

/-- `Mrc::new`: allocate `Rc::new(RefCell::new(value))` and draw the handle
nonce from `nonce()`. -/
def Mrc.new (v : α) (w : World α) : Mrc × World α :=
  let p := nonceCall w
  (⟨p.2.heap.length, p.1⟩, { p.2 with heap := p.2.heap ++ [⟨v, .free⟩] })

/-- The derived `Default` for `Mrc<T>`: a fresh `Rc<RefCell<T>>` holding the
default payload `d`, with `nonce = u32::default() = 0`; `nonce()` is not
called. -/
def Mrc.mkDefault (d : α) (w : World α) : Mrc × World α :=
  (⟨w.heap.length, 0⟩, { w with heap := w.heap ++ [⟨d, .free⟩] })

/-- The derived `Clone` for `Mrc<T>`: `Rc::clone` shares the pointer and the
`nonce` field is copied. -/
def Mrc.clone (m : Mrc) : Mrc :=
  ⟨m.inner, m.nonce⟩

/-- The `PartialEq` impl: `Rc::ptr_eq(&self.inner, &other.inner) &&
self.nonce == other.nonce`. -/
def Mrc.eq (a b : Mrc) : Bool :=
  a.inner == b.inner && a.nonce == b.nonce

/-- `Mrc::borrow`: `self.inner.borrow()`. Returns the observed payload (or
`none` on a borrow conflict, a Rust panic) and the world with the shared
guard recorded. -/
def Mrc.borrow (m : Mrc) (w : World α) : Option α × World α :=
  match w.heap[m.inner]? with
  | some c =>
    match tryShared c.flag with
    | some b => (some c.value, setCell w m.inner ⟨c.value, b⟩)
    | none => (none, w)
  | none => (none, w)

/-- `Mrc::borrow_mut`: first `self.nonce = nonce()` (the "mark as changed"
step), then `self.inner.borrow_mut()`. Returns the updated handle, the
world, and whether the exclusive borrow was acquired. The handle update and
the counter bump happen before and regardless of acquisition. -/
def Mrc.borrowMut (m : Mrc) (w : World α) : Mrc × World α × Bool :=
  let p := nonceCall w
  ⟨⟨m.inner, p.1⟩,
    match p.2.heap[m.inner]? with
    | some c =>
      match tryExclusive c.flag with
      | some b => (setCell p.2 m.inner ⟨c.value, b⟩, true)
      | none => (p.2, false)
    | none => (p.2, false)⟩

/-- `Mrc::with_mut`: `let mut this = self.borrow_mut(); f(this.deref_mut())`;
the closure gets mutable access (modelled as returning the new payload and a
result), and the guard drops at scope end. On a borrow conflict the Rust
code panics, modelled as a `none` result. -/
def Mrc.withMut (m : Mrc) (f : α → α × ρ) (w : World α) : Mrc × World α × Option ρ :=
  let r := m.borrowMut w
  if r.2.2 then
    match r.2.1.heap[m.inner]? with
    | some c =>
      (r.1, releaseExclusive (writeValue r.2.1 m.inner (f c.value).1) m.inner,
        some (f c.value).2)
    | none => (r.1, r.2.1, none)
  else
    (r.1, r.2.1, none)

/-- Repeated `Mrc::new 0` calls (each draws one value from `nonce()`),
keeping only the world: used to realise counter wraparound. -/
def spinNew : Nat → World Nat → World Nat
  | 0, w => w
  | k + 1, w => spinNew k (Mrc.new 0 w).2

/-- The handle nonces observed across `k` write accesses on one handle:
each step is `borrow_mut` followed by dropping the guard. -/
def writeMarkers : Nat → Mrc → World α → List Nat
  | 0, _, _ => []
  | k + 1, m, w =>
    let r := m.borrowMut w
    r.1.nonce :: writeMarkers k r.1 (releaseExclusive r.2.1 m.inner)

/-! Helper lemmas about the embedded operations. -/

/-- The handle returned by `borrow_mut` carries the fresh counter draw,
independently of whether the exclusive borrow was acquired. -/
lemma borrowMut_fst (m : Mrc) (w : World α) :
    (m.borrowMut w).1 = ⟨m.inner, (w.counter + 1) % U32⟩ := rfl

/-- The world after `borrow_mut` has the bumped counter in every branch. -/
lemma borrowMut_counter (m : Mrc) (w : World α) :
    (m.borrowMut w).2.1.counter = (w.counter + 1) % U32 := by
  unfold Mrc.borrowMut nonceCall
  cases h : (w.heap)[m.inner]? with
  | none => simp [h]
  | some c =>
    obtain ⟨cv, cf⟩ := c
    cases cf <;> simp [h, tryExclusive, setCell]

/-- Allocating with `Mrc::new` draws exactly one counter value. -/
lemma new_counter (v : α) (w : World α) :
    (Mrc.new v w).2.counter = (w.counter + 1) % U32 := rfl

/-- Dropping an exclusive guard does not touch the counter. -/
lemma releaseExclusive_counter (w : World α) (i : Nat) :
    (releaseExclusive w i).counter = w.counter := by
  unfold releaseExclusive
  cases h : w.heap[i]? with
  | none => rfl
  | some c =>
    obtain ⟨cv, cf⟩ := c
    cases cf <;> simp [setCell]

/-- `k` allocations advance the counter by `k`, modulo `2 ^ 32`. -/
lemma spinNew_counter (k : Nat) (w : World Nat) (h : w.counter < U32) :
    (spinNew k w).counter = (w.counter + k) % U32 := by
  induction k generalizing w with
  | zero => simp [spinNew, Nat.mod_eq_of_lt h]
  | succ k ih =>
    rw [spinNew, ih]
    · rw [new_counter, Nat.mod_add_mod]
      congr 1
      omega
    · rw [new_counter]
      exact Nat.mod_lt _ (by norm_num [U32])

/-- Closed form of the marker trace: the `i`-th write access observes
counter value `w.counter + i + 1`, modulo `2 ^ 32`. -/
lemma writeMarkers_closed (k : Nat) (m : Mrc) (w : World α) :
    writeMarkers k m w = (List.range k).map (fun i => (w.counter + (i + 1)) % U32) := by
  induction k generalizing m w with
  | zero => rfl
  | succ k ih =>
    rw [show writeMarkers (k + 1) m w =
        (m.borrowMut w).1.nonce ::
          writeMarkers k (m.borrowMut w).1
            (releaseExclusive (m.borrowMut w).2.1 m.inner) from rfl]
    rw [ih, borrowMut_fst]
    have hctr : (releaseExclusive (m.borrowMut w).2.1 m.inner).counter
        = (w.counter + 1) % U32 := by
      rw [releaseExclusive_counter, borrowMut_counter]
    rw [hctr, List.range_succ_eq_map, List.map_cons, List.map_map]
    congr 1
    apply List.map_congr_left
    intro a ha
    show ((w.counter + 1) % U32 + (a + 1)) % U32 = (w.counter + (a.succ + 1)) % U32
    rw [Nat.mod_add_mod]
    congr 1
    omega

/-- Allocations never touch existing heap cells: `spinNew` only appends. -/
lemma spinNew_heap_getElem (k : Nat) (w : World Nat) (i : Nat) (h : i < w.heap.length) :
    (spinNew k w).heap[i]? = w.heap[i]? := by
  induction k generalizing w with
  | zero => rfl
  | succ k ih =>
    rw [spinNew, ih]
    · show (w.heap ++ [(⟨0, .free⟩ : Cell Nat)])[i]? = w.heap[i]?
      exact List.getElem?_append_left h
    · show i < (w.heap ++ [(⟨0, .free⟩ : Cell Nat)]).length
      rw [List.length_append]
      omega

/-- On an unborrowed cell, `borrow_mut` acquires the exclusive borrow and
bumps the counter. -/
lemma borrowMut_heap_of_free (m : Mrc) (w : World α) (v : α)
    (h : w.heap[m.inner]? = some ⟨v, .free⟩) :
    (m.borrowMut w).2.1
      = World.mk (w.heap.set m.inner ⟨v, .exclusive⟩) ((w.counter + 1) % U32)
    ∧ (m.borrowMut w).2.2 = true := by
  unfold Mrc.borrowMut nonceCall
  simp [h, tryExclusive, setCell]

/-- On an exclusively borrowed cell, `borrow_mut` fails to acquire. -/
lemma borrowMut_fails_of_exclusive (m : Mrc) (w : World α) (v : α)
    (h : w.heap[m.inner]? = some ⟨v, .exclusive⟩) :
    (m.borrowMut w).2.2 = false := by
  unfold Mrc.borrowMut nonceCall
  simp [h, tryExclusive]

/-- Core of the wraparound-collision scenario, over an abstract world with
counter `2 ^ 32 - 1` and an unborrowed cell `0`: the first handle takes the
write guard (drawing marker `0`), the second write access then fails, yet
its fresh draw is `1` — re-issuing the old marker, so the handle comes back
unchanged. -/
lemma c9_core (W : World Nat) (hctr : W.counter = U32 - 1)
    (hheap : W.heap[0]? = some ⟨0, .free⟩) :
    ((⟨0, 1⟩ : Mrc).borrowMut ((⟨0, 1⟩ : Mrc).borrowMut W).2.1).2.2 = false
    ∧ ((⟨0, 1⟩ : Mrc).borrowMut ((⟨0, 1⟩ : Mrc).borrowMut W).2.1).1 = ⟨0, 1⟩ := by
  have hlen : 0 < W.heap.length := (List.getElem?_eq_some.mp hheap).1
  have hq := borrowMut_heap_of_free ⟨0, 1⟩ W 0 hheap
  rw [hq.1]
  have hexc : (World.mk (W.heap.set 0 (⟨0, .exclusive⟩ : Cell Nat))
      ((W.counter + 1) % U32)).heap[(0 : Nat)]?
      = some ⟨0, .exclusive⟩ := List.getElem?_set_self hlen
  constructor
  · exact borrowMut_fails_of_exclusive ⟨0, 1⟩ _ 0 hexc
  · rw [borrowMut_fst]
    show (⟨0, ((W.counter + 1) % U32 + 1) % U32⟩ : Mrc) = ⟨0, 1⟩
    rw [hctr]
    norm_num [U32]

/-! Claim theorems. -/

/-- C1: `equals(a, b)` is true iff `a` and `b` share the same underlying
storage identity and carry the same version marker; in particular two
handles over the same storage with different markers compare unequal. -/
theorem C1_equals_iff (a b : Mrc) :
    (Mrc.eq a b = true ↔ a.inner = b.inner ∧ a.nonce = b.nonce)
    ∧ (a.inner = b.inner → a.nonce ≠ b.nonce → Mrc.eq a b = false) := by
  constructor
  · simp [Mrc.eq]
  · intro h1 h2
    simp [Mrc.eq, h1, h2]

/-- Witness for C1 at a concrete pair of handles over the same storage with
different markers. -/
theorem C1_equals_iff_witness :
    Mrc.eq ⟨0, 1⟩ ⟨0, 2⟩ = false :=
  (C1_equals_iff ⟨0, 1⟩ ⟨0, 2⟩).2 rfl (by decide)

/-- C2 (counterexample to the unconditional claim): after exactly
`2 ^ 32 - 1` intervening counter draws, `borrow_mut` can wrap the `u32`
counter around to the very marker the clone carries, and the two handles
compare equal even though a write access took place. -/
theorem C2_counterexample :
    Mrc.eq
      ((Mrc.new 0 (⟨[], 0⟩ : World Nat)).1.borrowMut
        (spinNew (U32 - 1) (Mrc.new 0 (⟨[], 0⟩ : World Nat)).2)).1
      (Mrc.clone (Mrc.new 0 (⟨[], 0⟩ : World Nat)).1) = true := by
  rw [borrowMut_fst]
  have hc : (spinNew (U32 - 1) (Mrc.new 0 (⟨[], 0⟩ : World Nat)).2).counter = 0 := by
    rw [spinNew_counter]
    · rw [new_counter]
      norm_num [U32]
    · rw [new_counter]
      exact Nat.mod_lt _ (by norm_num [U32])
  rw [hc]
  decide

/-- C2 (amended): acquiring a write guard bumps the version marker of the
handle to the fresh counter draw, so the handle compares unequal to its
clone, provided the fresh draw does not collide with the old marker (the
`u32` counter has not wrapped around to reproduce it). -/
theorem C2_amended_bump (c : Mrc) (w : World α)
    (h : (w.counter + 1) % U32 ≠ c.nonce) :
    Mrc.eq (c.borrowMut w).1 (Mrc.clone c) = false := by
  rw [borrowMut_fst]
  simp [Mrc.eq, Mrc.clone, h]

/-- Witness for the amended C2 at a concrete handle and world. -/
theorem C2_amended_bump_witness :
    Mrc.eq ((⟨0, 5⟩ : Mrc).borrowMut (⟨[⟨(0 : Nat), .free⟩], 7⟩ : World Nat)).1
      (Mrc.clone ⟨0, 5⟩) = false :=
  C2_amended_bump ⟨0, 5⟩ ⟨[⟨(0 : Nat), .free⟩], 7⟩ (by decide)

/-- C3: cloning shares the underlying storage and copies the version
marker, so a handle compares equal to its fresh clone, and cloning changes
nothing on either handle. -/
theorem C3_clone_equal (c : Mrc) :
    Mrc.eq c (Mrc.clone c) = true
    ∧ (Mrc.clone c).inner = c.inner
    ∧ (Mrc.clone c).nonce = c.nonce := by
  refine ⟨?_, rfl, rfl⟩
  simp [Mrc.eq, Mrc.clone]

/-- C4: a read access leaves the counter and the stored payload unchanged,
and whatever value it returns is exactly the currently stored payload; the
handle itself is not touched (`borrow` takes the handle immutably and the
result handle-state is a pure function of the old one). -/
theorem C4_read_frame (m : Mrc) (w : World α) :
    ((m.borrow w).2).counter = w.counter
    ∧ getValue (m.borrow w).2 m.inner = getValue w m.inner
    ∧ (∀ v, (m.borrow w).1 = some v → getValue w m.inner = some v) := by
  unfold Mrc.borrow
  cases h : w.heap[m.inner]? with
  | none => simp [h, getValue]
  | some c =>
    obtain ⟨cv, cf⟩ := c
    have hlt : m.inner < w.heap.length := (List.getElem?_eq_some.mp h).1
    cases cf <;>
      simp [h, tryShared, setCell, getValue, List.getElem?_set_self hlt]

/-- Witness for C4 at a concrete container holding `42`. -/
theorem C4_read_frame_witness :
    getValue (⟨[⟨(42 : Nat), .free⟩], 3⟩ : World Nat) 0 = some 42 :=
  (C4_read_frame ⟨0, 1⟩ ⟨[⟨(42 : Nat), .free⟩], 3⟩).2.2 42 rfl

/-- C5: `new(v)` followed immediately by a read access observes exactly
`v`; construction is a total function with no error conditions. -/
theorem C5_new_read (v : α) (w : World α) :
    ((Mrc.new v w).1.borrow (Mrc.new v w).2).1 = some v := by
  simp [Mrc.new, Mrc.borrow, nonceCall, tryShared]

/-- C6: `with_mut f` returns the result of `f`, stores the payload `f`
produced, releases the guard, and has exactly the handle and counter
effect of a manual `borrow_mut` call; concretely, incrementing a wrapped
`0` to `1` makes a subsequent read observe `1`. -/
theorem C6_with_mut (m : Mrc) (w : World α) (f : α → α × ρ) (c : Cell α)
    (h : w.heap[m.inner]? = some c) (hf : c.flag = BorrowState.free) :
    (m.withMut f w).2.2 = some (f c.value).2
    ∧ getValue (m.withMut f w).2.1 m.inner = some (f c.value).1
    ∧ getFlag (m.withMut f w).2.1 m.inner = some BorrowState.free
    ∧ (m.withMut f w).1 = (m.borrowMut w).1
    ∧ (m.withMut f w).2.1.counter = (m.borrowMut w).2.1.counter
    ∧ (((Mrc.new 0 (⟨[], 0⟩ : World Nat)).1.withMut (fun x => (x + 1, ()))
          (Mrc.new 0 (⟨[], 0⟩ : World Nat)).2).1.borrow
        ((Mrc.new 0 (⟨[], 0⟩ : World Nat)).1.withMut (fun x => (x + 1, ()))
          (Mrc.new 0 (⟨[], 0⟩ : World Nat)).2).2.1).1 = some 1 := by
  obtain ⟨cv, cf⟩ := c
  obtain rfl : cf = BorrowState.free := hf
  have hlt : m.inner < w.heap.length := (List.getElem?_eq_some.mp h).1
  have hlt2 : m.inner < (w.heap.set m.inner ⟨cv, .exclusive⟩).length := by
    rw [List.length_set]; exact hlt
  refine ⟨?_, ?_, ?_, ?_, ?_, by decide⟩ <;>
    simp [Mrc.withMut, Mrc.borrowMut, nonceCall, h, tryExclusive, setCell,
      writeValue, releaseExclusive, getValue, getFlag,
      List.getElem?_set_self hlt, List.getElem?_set_self hlt2, List.set_set]

/-- Witness for C6 at a concrete container and closure. -/
theorem C6_with_mut_witness :
    ((⟨0, 1⟩ : Mrc).withMut (fun x => (x + 1, (37 : Nat)))
      (⟨[⟨(0 : Nat), .free⟩], 1⟩ : World Nat)).2.2 = some 37 :=
  (C6_with_mut ⟨0, 1⟩ ⟨[⟨(0 : Nat), .free⟩], 1⟩ (fun x => (x + 1, 37))
    ⟨0, .free⟩ rfl rfl).1

/-- C7: across repeated write accesses on one handle the observed version
markers are non-decreasing as long as the `u32` counter does not wrap, and
the counter wraps on overflow (the draw after `2 ^ 32 - 1` is `0`) rather
than erroring. -/
theorem C7_markers_monotone (m : Mrc) (w : World α) (k : Nat)
    (h : w.counter + k < U32) :
    List.Pairwise (· ≤ ·) (writeMarkers k m w)
    ∧ (nonceCall { w with counter := U32 - 1 }).1 = 0 := by
  constructor
  · rw [writeMarkers_closed, List.pairwise_map]
    refine (List.pairwise_lt_range k).imp_of_mem ?_
    intro a b ha hb hab
    rw [List.mem_range] at ha hb
    have hA : w.counter + (a + 1) < U32 := by omega
    have hB : w.counter + (b + 1) < U32 := by omega
    rw [Nat.mod_eq_of_lt hA, Nat.mod_eq_of_lt hB]
    omega
  · show (U32 - 1 + 1) % U32 = 0
    norm_num [U32]

/-- Witness for C7: three write accesses on a concrete handle. -/
theorem C7_markers_monotone_witness :
    List.Pairwise (· ≤ ·) (writeMarkers 3 ⟨0, 1⟩ (⟨[⟨(5 : Nat), .free⟩], 1⟩ : World Nat)) :=
  (C7_markers_monotone ⟨0, 1⟩ ⟨[⟨(5 : Nat), .free⟩], 1⟩ 3 (by decide)).1

/-- C8: a write access fails exactly when any guard is outstanding on the
storage; a read access fails exactly when an exclusive guard is
outstanding (so the borrow conflict is the only error either access can
raise); and a second read access while a shared guard is outstanding
succeeds. -/
theorem C8_borrow_discipline (m : Mrc) (w : World α) (c : Cell α)
    (h : w.heap[m.inner]? = some c) :
    ((m.borrowMut w).2.2 = false ↔ c.flag ≠ BorrowState.free)
    ∧ ((m.borrow w).1 = none ↔ c.flag = BorrowState.exclusive)
    ∧ (∀ n, c.flag = BorrowState.shared n → (m.borrow w).1 = some c.value) := by
  obtain ⟨cv, cf⟩ := c
  unfold Mrc.borrowMut Mrc.borrow nonceCall
  cases cf <;> simp [h, tryExclusive, tryShared]

/-- Witness for C8: the second read on a cell with one outstanding shared
guard succeeds. -/
theorem C8_borrow_discipline_witness :
    (Mrc.borrow ⟨0, 1⟩ (⟨[⟨(42 : Nat), .shared 0⟩], 2⟩ : World Nat)).1 = some 42 :=
  (C8_borrow_discipline ⟨0, 1⟩ ⟨[⟨(42 : Nat), .shared 0⟩], 2⟩ ⟨42, .shared 0⟩ rfl).2.2 0 rfl

/-- C9 (counterexample to the unconditional claim): in the reachable
wraparound-collision failure state — create a container (marker `1`),
spin `2 ^ 32 - 2` further counter draws, let a clone take the write guard
(drawing marker `0`), then attempt `borrow_mut` on the original handle —
the acquisition fails AND the fresh draw re-issues the old marker `1`, so
the handle comes back equal to what it was: handle state IS left unchanged
on this error, refuting "the marker has already been changed". -/
theorem C9_counterexample :
    ((Mrc.new 0 (⟨[], 0⟩ : World Nat)).1.borrowMut
        ((Mrc.clone (Mrc.new 0 (⟨[], 0⟩ : World Nat)).1).borrowMut
          (spinNew (U32 - 2) (Mrc.new 0 (⟨[], 0⟩ : World Nat)).2)).2.1).2.2 = false
    ∧ ((Mrc.new 0 (⟨[], 0⟩ : World Nat)).1.borrowMut
        ((Mrc.clone (Mrc.new 0 (⟨[], 0⟩ : World Nat)).1).borrowMut
          (spinNew (U32 - 2) (Mrc.new 0 (⟨[], 0⟩ : World Nat)).2)).2.1).1
      = (Mrc.new 0 (⟨[], 0⟩ : World Nat)).1 := by
  have hspin_ctr : (spinNew (U32 - 2) (Mrc.new 0 (⟨[], 0⟩ : World Nat)).2).counter
      = U32 - 1 := by
    rw [spinNew_counter, new_counter]
    · norm_num [U32]
    · rw [new_counter]
      norm_num [U32]
  have hspin_heap : (spinNew (U32 - 2) (Mrc.new 0 (⟨[], 0⟩ : World Nat)).2).heap[0]?
      = some ⟨0, .free⟩ := by
    rw [spinNew_heap_getElem]
    · rfl
    · show 0 < ((Mrc.new 0 (⟨[], 0⟩ : World Nat)).2.heap).length
      decide
  rw [show (Mrc.new 0 (⟨[], 0⟩ : World Nat)).1 = (⟨0, 1⟩ : Mrc) from rfl,
    show Mrc.clone ⟨0, 1⟩ = (⟨0, 1⟩ : Mrc) from rfl]
  exact c9_core _ hspin_ctr hspin_heap

/-- C9 (amended): `borrow_mut` assigns the fresh counter draw to the handle
marker before attempting the exclusive borrow, so on a borrow-conflict
failure the marker has already been overwritten with the fresh draw and the
counter advanced — the failed write access is not atomic — and the marker
value has actually changed provided the fresh draw does not collide with
the old marker (the `u32` counter has not wrapped around to reproduce it). -/
theorem C9_bump_before_acquire (m : Mrc) (w : World α)
    (hfail : (m.borrowMut w).2.2 = false)
    (hfresh : (w.counter + 1) % U32 ≠ m.nonce) :
    (m.borrowMut w).1.nonce = (w.counter + 1) % U32
    ∧ (m.borrowMut w).1.nonce ≠ m.nonce
    ∧ (m.borrowMut w).2.1.counter = (w.counter + 1) % U32 := by
  refine ⟨by rw [borrowMut_fst], ?_, borrowMut_counter m w⟩
  rw [borrowMut_fst]
  exact hfresh

/-- Witness for C9: a failing write access on an exclusively borrowed cell
still rewrites the handle marker. -/
theorem C9_bump_before_acquire_witness :
    (Mrc.borrowMut ⟨0, 5⟩ (⟨[⟨(0 : Nat), .exclusive⟩], 0⟩ : World Nat)).1.nonce = (0 + 1) % U32
    ∧ (Mrc.borrowMut ⟨0, 5⟩ (⟨[⟨(0 : Nat), .exclusive⟩], 0⟩ : World Nat)).1.nonce ≠ 5
    ∧ (Mrc.borrowMut ⟨0, 5⟩ (⟨[⟨(0 : Nat), .exclusive⟩], 0⟩ : World Nat)).2.1.counter
        = (0 + 1) % U32 :=
  C9_bump_before_acquire ⟨0, 5⟩ ⟨[⟨(0 : Nat), .exclusive⟩], 0⟩ (by decide) (by decide)

/-- C10: the derived `Default` constructor sets the version marker to `0`
without consulting the counter, whereas `new` always draws a fresh counter
value, which is at least `1` whenever the draw does not wrap. -/
theorem C10_default_vs_new (d v : α) (w : World α) (h : w.counter + 1 < U32) :
    (Mrc.mkDefault d w).1.nonce = 0
    ∧ (Mrc.mkDefault d w).2.counter = w.counter
    ∧ (Mrc.new v w).1.nonce = (w.counter + 1) % U32
    ∧ 1 ≤ (Mrc.new v w).1.nonce := by
  refine ⟨rfl, rfl, rfl, ?_⟩
  simp [Mrc.new, nonceCall, Nat.mod_eq_of_lt h]

/-- Witness for C10 at a fresh world. -/
theorem C10_default_vs_new_witness :
    (Mrc.mkDefault (0 : Nat) ⟨[], 0⟩).1.nonce = 0
    ∧ (Mrc.mkDefault (0 : Nat) (⟨[], 0⟩ : World Nat)).2.counter = 0
    ∧ (Mrc.new (7 : Nat) ⟨[], 0⟩).1.nonce = (0 + 1) % U32
    ∧ 1 ≤ (Mrc.new (7 : Nat) (⟨[], 0⟩ : World Nat)).1.nonce :=
  C10_default_vs_new 0 7 ⟨[], 0⟩ (by decide)
